import Mathlib

/-!
Verification of the go-oauth2-server storage and token-authority core.

Shallow embedding conventions:
* Timestamps are natural numbers (seconds); the Go comparisons
  a.Before(b) and a.After(b) become a < b and a > b.
* Go maps become association lists over String keys; map assignment
  replaces any previous binding, deletion filters the key out.
* sql.NullString is a pair of the string payload and a validity flag.
* Fallible Go operations return Except; operations that mutate a store
  return the new store next to the result.
* The bcrypt comparison is abstracted as a boolean-valued parameter
  verify : hash -> password -> Bool (true means the comparison succeeded).
-/

/-- database/sql NullString: a string that may be NULL. -/
structure NullString where
  str : String
  valid : Bool
deriving DecidableEq, Repr

/-- models.OauthClient (the models package itself is outside src/; fields
follow the specification's data model: unique key, secret, redirect URI,
creation timestamp). -/
structure OauthClient where
  key : String
  secret : String
  redirectURI : String
  createdAt : Nat
deriving DecidableEq, Repr

/-- models.OauthUser: username, opaque id, nullable password hash. -/
structure OauthUser where
  id : String
  username : String
  password : NullString
  createdAt : Nat
deriving DecidableEq, Repr

/-- models.OauthAccessToken: the fields read by the code under src/. -/
structure OauthAccessToken where
  token : String
  clientID : NullString
  userID : NullString
  scope : String
  expiresAt : Nat
  createdAt : Nat
deriving DecidableEq, Repr

/-- models.OauthRefreshToken. -/
structure OauthRefreshToken where
  token : String
  clientID : NullString
  userID : NullString
  scope : String
  expiresAt : Nat
  createdAt : Nat
deriving DecidableEq, Repr

/-- models.OauthAuthorizationCode. -/
structure OauthAuthorizationCode where
  code : String
  clientID : NullString
  userID : NullString
  redirectURI : String
  scope : String
  expiresAt : Nat
  createdAt : Nat
deriving DecidableEq, Repr

/-- models.OauthScope: scope name and the is-default flag from the
specification's data model. -/
structure OauthScope where
  scope : String
  isDefault : Bool
deriving DecidableEq, Repr

/-- The sentinel errors of storage/errors.go. -/
inductive StorageErr where
  | clientNotFound
  | userNotFound
  | tokenNotFound
  | tokenExpired
  | codeNotFound
  | codeExpired
  | scopeNotFound
  | roleNotFound
  | invalidCredentials
deriving DecidableEq, Repr

/-- Lookup in a Go map modelled as an association list. -/
def mapLookup {α : Type} (m : List (String × α)) (k : String) : Option α :=
  (m.find? (fun p => p.1 == k)).map (fun p => p.2)

/-- Go map assignment m[k] = v: the new binding replaces any previous one. -/
def mapInsert {α : Type} (m : List (String × α)) (k : String) (v : α) :
    List (String × α) :=
  (k, v) :: m.filter (fun p => !(p.1 == k))

/-- Go delete(m, k): removes the binding if present, no-op otherwise. -/
def mapErase {α : Type} (m : List (String × α)) (k : String) :
    List (String × α) :=
  m.filter (fun p => !(p.1 == k))

/-- The maps of storage.MemoryStorage (storage/memory.go). -/
structure MemoryStorage where
  clients : List (String × OauthClient)
  users : List (String × OauthUser)
  usersByID : List (String × OauthUser)
  accessTokens : List (String × OauthAccessToken)
  refreshTokens : List (String × OauthRefreshToken)
  authCodes : List (String × OauthAuthorizationCode)
  scopes : List (String × OauthScope)
deriving DecidableEq, Repr

/-- storage.NewMemoryStorage: all maps empty. -/
def NewMemoryStorage : MemoryStorage :=
  ⟨[], [], [], [], [], [], []⟩

/-- MemoryStorage.GetClient (memory.go): hit returns the client, miss
returns ErrClientNotFound. -/
def MemoryStorage.GetClient (m : MemoryStorage) (clientID : String) :
    Except StorageErr OauthClient :=
  match mapLookup m.clients clientID with
  | some client => Except.ok client
  | none => Except.error StorageErr.clientNotFound

/-- MemoryStorage.DeleteClient (memory.go): delete from the map, always nil
error. -/
def MemoryStorage.DeleteClient (m : MemoryStorage) (clientID : String) :
    MemoryStorage × Except StorageErr Unit :=
  ({ m with clients := mapErase m.clients clientID }, Except.ok ())

/-- MemoryStorage.GetUser (memory.go). -/
def MemoryStorage.GetUser (m : MemoryStorage) (username : String) :
    Except StorageErr OauthUser :=
  match mapLookup m.users username with
  | some user => Except.ok user
  | none => Except.error StorageErr.userNotFound

/-- MemoryStorage.GetUserByID (memory.go). -/
def MemoryStorage.GetUserByID (m : MemoryStorage) (userID : String) :
    Except StorageErr OauthUser :=
  match mapLookup m.usersByID userID with
  | some user => Except.ok user
  | none => Except.error StorageErr.userNotFound

/-- MemoryStorage.AuthenticateUser (memory.go): look the user up, reject a
NULL stored credential, then compare the presented password against the
stored hash (bcrypt.CompareHashAndPassword abstracted as verify). -/
def MemoryStorage.AuthenticateUser (verify : String → String → Bool)
    (m : MemoryStorage) (username password : String) :
    Except StorageErr OauthUser :=
  match MemoryStorage.GetUser m username with
  | Except.error e => Except.error e
  | Except.ok user =>
    if user.password.valid then
      if verify user.password.str password then Except.ok user
      else Except.error StorageErr.invalidCredentials
    else Except.error StorageErr.invalidCredentials

/-- MemoryStorage.GetAccessToken (memory.go): hit that is past expiry
(ExpiresAt.Before(now)) is ErrTokenExpired, miss is ErrTokenNotFound. -/
def MemoryStorage.GetAccessToken (now : Nat) (m : MemoryStorage)
    (tokenStr : String) : Except StorageErr OauthAccessToken :=
  match mapLookup m.accessTokens tokenStr with
  | some token =>
    if token.expiresAt < now then Except.error StorageErr.tokenExpired
    else Except.ok token
  | none => Except.error StorageErr.tokenNotFound

/-- MemoryStorage.DeleteAccessToken (memory.go). -/
def MemoryStorage.DeleteAccessToken (m : MemoryStorage) (tokenStr : String) :
    MemoryStorage × Except StorageErr Unit :=
  ({ m with accessTokens := mapErase m.accessTokens tokenStr }, Except.ok ())

/-- MemoryStorage.CleanupExpiredTokens (memory.go): deletes the access and
refresh tokens whose ExpiresAt.Before(now); the authCodes map is not
visited by the source. -/
def MemoryStorage.CleanupExpiredTokens (now : Nat) (m : MemoryStorage) :
    MemoryStorage × Except StorageErr Unit :=
  ({ m with
      accessTokens := (m.accessTokens.filter (fun p => !(p.2.expiresAt < now))),
      refreshTokens := (m.refreshTokens.filter (fun p => !(p.2.expiresAt < now))) },
   Except.ok ())

/-- MemoryStorage.GetRefreshToken (memory.go). -/
def MemoryStorage.GetRefreshToken (now : Nat) (m : MemoryStorage)
    (tokenStr : String) : Except StorageErr OauthRefreshToken :=
  match mapLookup m.refreshTokens tokenStr with
  | some token =>
    if token.expiresAt < now then Except.error StorageErr.tokenExpired
    else Except.ok token
  | none => Except.error StorageErr.tokenNotFound

/-- MemoryStorage.DeleteRefreshToken (memory.go). -/
def MemoryStorage.DeleteRefreshToken (m : MemoryStorage) (tokenStr : String) :
    MemoryStorage × Except StorageErr Unit :=
  ({ m with refreshTokens := mapErase m.refreshTokens tokenStr }, Except.ok ())

/-- MemoryStorage.GetAuthorizationCode (memory.go). -/
def MemoryStorage.GetAuthorizationCode (now : Nat) (m : MemoryStorage)
    (codeStr : String) : Except StorageErr OauthAuthorizationCode :=
  match mapLookup m.authCodes codeStr with
  | some code =>
    if code.expiresAt < now then Except.error StorageErr.codeExpired
    else Except.ok code
  | none => Except.error StorageErr.codeNotFound

/-- MemoryStorage.DeleteAuthorizationCode (memory.go). -/
def MemoryStorage.DeleteAuthorizationCode (m : MemoryStorage)
    (codeStr : String) : MemoryStorage × Except StorageErr Unit :=
  ({ m with authCodes := mapErase m.authCodes codeStr }, Except.ok ())

/-- MemoryStorage.GetScope (memory.go). -/
def MemoryStorage.GetScope (m : MemoryStorage) (scope : String) :
    Except StorageErr OauthScope :=
  match mapLookup m.scopes scope with
  | some scopeObj => Except.ok scopeObj
  | none => Except.error StorageErr.scopeNotFound

/-- MemoryStorage.GetDefaultScope (memory.go): returns the constant "read"
without consulting the scopes map. -/
def MemoryStorage.GetDefaultScope (_m : MemoryStorage) :
    Except StorageErr String :=
  Except.ok "read"

/-- The errors of oauth/authenticate.go. -/
inductive OauthErr where
  | accessTokenNotFound
  | accessTokenExpired
deriving DecidableEq, Repr

/-- The two tables the oauth service touches, as row lists (gorm). -/
structure ServiceDB where
  accessTokens : List OauthAccessToken
  refreshTokens : List OauthRefreshToken
deriving DecidableEq, Repr

/-- The refresh-token rows updated by Service.Authenticate: SQL
client_id = accessToken.ClientID.String matches non-NULL equal values;
user_id = accessToken.UserID.String when UserID.Valid, user_id IS NULL
otherwise. -/
def refreshMatches (tok : OauthAccessToken) (rt : OauthRefreshToken) : Bool :=
  rt.clientID.valid && (rt.clientID.str == tok.clientID.str) &&
    (if tok.userID.valid then rt.userID.valid && (rt.userID.str == tok.userID.str)
     else !rt.userID.valid)

/-- oauth Service.Authenticate (oauth/authenticate.go): fetch the access
token by string; ErrAccessTokenNotFound on a miss; ErrAccessTokenExpired
when time.Now().After(ExpiresAt), i.e. expiresAt < now; otherwise set
expires_at of every matching refresh-token row to now plus the configured
refresh-token lifetime and return the access token. -/
def Service.Authenticate (now lifetime : Nat) (db : ServiceDB)
    (token : String) : Except OauthErr (OauthAccessToken × ServiceDB) :=
  match db.accessTokens.find? (fun t => t.token == token) with
  | none => Except.error OauthErr.accessTokenNotFound
  | some accessToken =>
    if accessToken.expiresAt < now then
      Except.error OauthErr.accessTokenExpired
    else
      let increasedExpiresAt := now + lifetime
      Except.ok (accessToken,
        { db with refreshTokens := (db.refreshTokens.map (fun rt =>
            if refreshMatches accessToken rt then
              { rt with expiresAt := increasedExpiresAt }
            else rt)) })

/-- The payloads the PostgreSQL backend writes through the Cache Port
(value types behind the interface-typed cache argument). -/
inductive CacheVal where
  | client (c : OauthClient)
  | user (u : OauthUser)
  | token (t : OauthAccessToken)
deriving DecidableEq, Repr

/-- One cache entry: the value, the TTL that was passed to Set (seconds,
Int because time.Until can be negative), and the resulting absolute expiry
now + ttl (MemoryCache.Set / redis SET EX semantics). -/
structure CacheEntry where
  val : CacheVal
  ttl : Int
  expiresAt : Int
deriving DecidableEq, Repr

/-- CacheProvider.Set at time now: record the value, the TTL passed, and
the absolute expiry now + ttl. -/
def cacheSet (now : Nat) (cache : List (String × CacheEntry)) (key : String)
    (val : CacheVal) (ttl : Int) : List (String × CacheEntry) :=
  mapInsert cache key ⟨val, ttl, (now : Int) + ttl⟩

/-- The state behind PostgreSQLStorage (postgres/postgres.go): the client,
user and access-token tables plus the optional cache
(cacheEnabled models the s.cache != nil checks). -/
structure PgState where
  cacheEnabled : Bool
  clients : List OauthClient
  users : List OauthUser
  accessTokens : List OauthAccessToken
  cache : List (String × CacheEntry)
deriving DecidableEq, Repr

/-- CacheProvider.Get as the Cache Port contract specifies it (value on an
unexpired hit, miss otherwise), guarded by s.cache != nil. -/
def pgCacheGet (now : Nat) (st : PgState) (key : String) : Option CacheVal :=
  if st.cacheEnabled then
    match mapLookup st.cache key with
    | some e => if (now : Int) > e.expiresAt then none else some e.val
    | none => none
  else none

/-- The configured cache TTL of the source builder (part of src: every
CacheConfig it constructs sets TTL to 5 minutes, and postgres GetClient
and GetUser cache with the same 5*time.Minute constant). -/
def configuredCacheTTL : Int := 300

/-- gorm db.Save on the clients table, with the client key as row
identity (the models package is outside src/; the key is the only
identifying client field the code under src/ uses): update the matching
rows if any exist, insert otherwise. -/
def gormSave (l : List OauthClient) (c : OauthClient) : List OauthClient :=
  if l.any (fun x => x.key == c.key) then
    l.map (fun x => if x.key == c.key then c else x)
  else l ++ [c]

/-- PostgreSQLStorage.GetClient (postgres.go): try the cache under
key "client:" ++ id; on a miss query the table, returning (nil, nil) when
gorm reports record-not-found; cache a hit for 5 minutes. -/
def PostgreSQLStorage.GetClient (now : Nat) (st : PgState)
    (clientID : String) : Except String (Option OauthClient) × PgState :=
  match pgCacheGet now st ("client:" ++ clientID) with
  | some (CacheVal.client c) => (Except.ok (some c), st)
  | _ =>
    match st.clients.find? (fun c => c.key == clientID) with
    | none => (Except.ok none, st)
    | some c =>
      (Except.ok (some c),
       if st.cacheEnabled then
         { st with cache := (cacheSet now st.cache ("client:" ++ clientID)
             (CacheVal.client c) 300) }
       else st)

/-- PostgreSQLStorage.CreateClient (postgres.go): insert the row, then
delete the cache entry for key "client:" ++ client.Key. -/
def PostgreSQLStorage.CreateClient (st : PgState) (client : OauthClient) :
    Except String Unit × PgState :=
  let st1 := { st with clients := st.clients ++ [client] }
  (Except.ok (),
   if st1.cacheEnabled then
     { st1 with cache := mapErase st1.cache ("client:" ++ client.key) }
   else st1)

/-- PostgreSQLStorage.UpdateClient (postgres.go): db.Save, then delete the
cache entry for key "client:" ++ client.Key. -/
def PostgreSQLStorage.UpdateClient (st : PgState) (client : OauthClient) :
    Except String Unit × PgState :=
  let st1 := { st with clients := gormSave st.clients client }
  (Except.ok (),
   if st1.cacheEnabled then
     { st1 with cache := mapErase st1.cache ("client:" ++ client.key) }
   else st1)

/-- PostgreSQLStorage.DeleteClient (postgres.go): delete the matching
rows, then delete the cache entry. -/
def PostgreSQLStorage.DeleteClient (st : PgState) (clientID : String) :
    Except String Unit × PgState :=
  let st1 := { st with clients := st.clients.filter (fun c => !(c.key == clientID)) }
  (Except.ok (),
   if st1.cacheEnabled then
     { st1 with cache := mapErase st1.cache ("client:" ++ clientID) }
   else st1)

/-- PostgreSQLStorage.GetUser (postgres.go): cache under "user:" ++ name,
(nil, nil) on record-not-found, cache a hit for 5 minutes. -/
def PostgreSQLStorage.GetUser (now : Nat) (st : PgState)
    (username : String) : Except String (Option OauthUser) × PgState :=
  match pgCacheGet now st ("user:" ++ username) with
  | some (CacheVal.user u) => (Except.ok (some u), st)
  | _ =>
    match st.users.find? (fun u => u.username == username) with
    | none => (Except.ok none, st)
    | some u =>
      (Except.ok (some u),
       if st.cacheEnabled then
         { st with cache := (cacheSet now st.cache ("user:" ++ username)
             (CacheVal.user u) 300) }
       else st)

/-- PostgreSQLStorage.GetUserByID (postgres.go): no cache, (nil, nil) on
record-not-found. -/
def PostgreSQLStorage.GetUserByID (st : PgState) (userID : String) :
    Except String (Option OauthUser) × PgState :=
  match st.users.find? (fun u => u.id == userID) with
  | none => (Except.ok none, st)
  | some u => (Except.ok (some u), st)

/-- PostgreSQLStorage.AuthenticateUser (postgres.go): GetUser, propagate
its error, (nil, nil) when the user is absent, and otherwise return the
user. The presented password is never examined: the password check is an
unimplemented TODO in the source. -/
def PostgreSQLStorage.AuthenticateUser (now : Nat) (st : PgState)
    (username password : String) : Except String (Option OauthUser) × PgState :=
  let _ := password
  match PostgreSQLStorage.GetUser now st username with
  | (Except.error e, st1) => (Except.error e, st1)
  | (Except.ok none, st1) => (Except.ok none, st1)
  | (Except.ok (some user), st1) => (Except.ok (some user), st1)

/-- PostgreSQLStorage.StoreAccessToken (postgres.go): insert the row, then
cache it under "access_token:" ++ token with TTL time.Until(ExpiresAt),
i.e. expiresAt - now. -/
def PostgreSQLStorage.StoreAccessToken (now : Nat) (st : PgState)
    (token : OauthAccessToken) : Except String Unit × PgState :=
  let st1 := { st with accessTokens := st.accessTokens ++ [token] }
  (Except.ok (),
   if st1.cacheEnabled then
     { st1 with cache := (cacheSet now st1.cache ("access_token:" ++ token.token)
         (CacheVal.token token) ((token.expiresAt : Int) - (now : Int))) }
   else st1)

/-- PostgreSQLStorage.GetAccessToken (postgres.go): try the cache; on a
miss query the table, (nil, nil) on record-not-found; repopulate the cache
with TTL time.Until(ExpiresAt) only when ExpiresAt.After(now). -/
def PostgreSQLStorage.GetAccessToken (now : Nat) (st : PgState)
    (tokenStr : String) : Except String (Option OauthAccessToken) × PgState :=
  match pgCacheGet now st ("access_token:" ++ tokenStr) with
  | some (CacheVal.token t) => (Except.ok (some t), st)
  | _ =>
    match st.accessTokens.find? (fun t => t.token == tokenStr) with
    | none => (Except.ok none, st)
    | some t =>
      (Except.ok (some t),
       if st.cacheEnabled then
         if now < t.expiresAt then
           { st with cache := (cacheSet now st.cache ("access_token:" ++ tokenStr)
               (CacheVal.token t) ((t.expiresAt : Int) - (now : Int))) }
         else st
       else st)

/-- The item type of storage.MemoryCache (factory.go), value type left as
a parameter for the interface-typed payload. -/
structure CacheItem (α : Type) where
  value : α
  expiresAt : Nat
deriving DecidableEq, Repr

/-- storage.MemoryCache (factory.go). -/
structure MemoryCache (α : Type) where
  data : List (String × CacheItem α)
deriving DecidableEq, Repr

/-- MemoryCache.Set (factory.go): store the value with absolute expiry
time.Now().Add(ttl); always nil error. -/
def MemoryCache.Set {α : Type} (now : Nat) (m : MemoryCache α) (key : String)
    (value : α) (ttl : Nat) : MemoryCache α × Except String Unit :=
  (⟨mapInsert m.data key ⟨value, now + ttl⟩⟩, Except.ok ())

/-- MemoryCache.Get (factory.go): error when the key is absent or
time.Now().After(ExpiresAt); on a hit it returns nil error but the source
never copies the stored value into dest, so dest is returned unchanged. -/
def MemoryCache.Get {α : Type} (now : Nat) (m : MemoryCache α) (key : String)
    (dest : α) : Except String Unit × α :=
  match mapLookup m.data key with
  | none => (Except.error "key not found or expired", dest)
  | some item =>
    if now > item.expiresAt then (Except.error "key not found or expired", dest)
    else (Except.ok (), dest)

/-! ### Lemmas about the map model -/

theorem mapLookup_mapInsert_self {α : Type} (m : List (String × α))
    (k : String) (v : α) : mapLookup (mapInsert m k v) k = some v := by
  simp [mapLookup, mapInsert, List.find?]

theorem mapLookup_mapErase_self {α : Type} (m : List (String × α))
    (k : String) : mapLookup (mapErase m k) k = none := by
  induction m with
  | nil => rfl
  | cons p t ih =>
    by_cases h : p.1 == k
    · rw [mapErase, List.filter_cons] at *
      simp only [h, Bool.not_true, Bool.false_eq_true, if_false]
      exact ih
    · have hb : (p.1 == k) = false := by simpa using h
      simp only [mapErase, mapLookup] at ih ⊢
      rw [List.filter_cons]
      simp only [hb, Bool.not_false, if_true]
      rw [List.find?_cons_of_neg _ (by simp [hb])]
      exact ih

theorem mapErase_idem {α : Type} (m : List (String × α)) (k : String) :
    mapErase (mapErase m k) k = mapErase m k := by
  simp [mapErase, List.filter_filter]

theorem find?_map_replace (t : List OauthClient) (c : OauthClient)
    (h : t.any (fun y => y.key == c.key) = true) :
    (t.map (fun x => if x.key == c.key then c else x)).find?
      (fun x => x.key == c.key) = some c := by
  induction t with
  | nil => simp at h
  | cons x s ih =>
    by_cases hx : (x.key == c.key) = true
    · have hx2 : x.key = c.key := by simpa using hx
      simp [hx2, List.find?_cons]
    · have hs : s.any (fun y => y.key == c.key) = true := by
        simpa [List.any_cons, hx] using h
      simp only [List.map_cons, if_neg (by simp [hx] : ¬ (x.key == c.key) = true)]
      rw [List.find?_cons_of_neg _ (by simp [hx])]
      exact ih hs

theorem find?_append_single (t : List OauthClient) (c : OauthClient)
    (h : ∀ y ∈ t, ¬ y.key = c.key) :
    (t ++ [c]).find? (fun x => x.key == c.key) = some c := by
  induction t with
  | nil => simp [List.find?]
  | cons x s ih =>
    rw [List.cons_append, List.find?_cons_of_neg _ (by simp [h x (by simp)])]
    exact ih (fun y hy => h y (by simp [hy]))

theorem find?_gormSave (l : List OauthClient) (c : OauthClient) :
    (gormSave l c).find? (fun x => x.key == c.key) = some c := by
  unfold gormSave
  by_cases h : l.any (fun x => x.key == c.key) = true
  · rw [if_pos h]
    exact find?_map_replace l c h
  · rw [if_neg h]
    exact find?_append_single l c (by simpa using h)

/-! ### Concrete stores used by the counterexamples and witnesses -/

deriving instance DecidableEq for Except

/-- An access token whose expiry is the instant 5. -/
def tokAtFive : OauthAccessToken :=
  { token := "t", clientID := ⟨"c", true⟩, userID := ⟨"", false⟩,
    scope := "read", expiresAt := 5, createdAt := 0 }

/-- A service database holding only tokAtFive. -/
def dbAtFive : ServiceDB :=
  { accessTokens := [tokAtFive], refreshTokens := [] }

/-- An in-memory store holding only tokAtFive. -/
def memAtFive : MemoryStorage :=
  { NewMemoryStorage with accessTokens := [("t", tokAtFive)] }

/-- Claim C1 (counterexample). The claim requires failure with Expired at
exactly the expiry instant; with now = expiresAt = 5 both the oauth
Service.Authenticate and the in-memory GetAccessToken succeed and return
the token instead. -/
theorem C1_counterexample :
    Service.Authenticate 5 10 dbAtFive "t" = Except.ok (tokAtFive, dbAtFive) ∧
    Service.Authenticate 5 10 dbAtFive "t" ≠
      Except.error OauthErr.accessTokenExpired ∧
    MemoryStorage.GetAccessToken 5 memAtFive "t" = Except.ok tokAtFive := by
  refine ⟨by decide, by decide, by decide⟩

/-- Claim C1 (amended): Authenticate(t) succeeds iff an access token with
that string exists and now is at or before its expiry; it fails with
NotFound when no such token exists and with Expired when a token exists
and now is strictly after the expiry (at exactly the expiry instant it
succeeds). The in-memory GetAccessToken classifies identically. -/
theorem C1_amended_authenticate (now lifetime : Nat) (db : ServiceDB)
    (t : String) (m : MemoryStorage) (now2 : Nat) (ts : String) :
    (db.accessTokens.find? (fun a => a.token == t) = none →
      Service.Authenticate now lifetime db t =
        Except.error OauthErr.accessTokenNotFound) ∧
    (∀ a, db.accessTokens.find? (fun a => a.token == t) = some a →
      ((now ≤ a.expiresAt →
          ∃ db2, Service.Authenticate now lifetime db t = Except.ok (a, db2)) ∧
       (a.expiresAt < now →
          Service.Authenticate now lifetime db t =
            Except.error OauthErr.accessTokenExpired))) ∧
    (mapLookup m.accessTokens ts = none →
      MemoryStorage.GetAccessToken now2 m ts =
        Except.error StorageErr.tokenNotFound) ∧
    (∀ a, mapLookup m.accessTokens ts = some a →
      ((now2 ≤ a.expiresAt →
          MemoryStorage.GetAccessToken now2 m ts = Except.ok a) ∧
       (a.expiresAt < now2 →
          MemoryStorage.GetAccessToken now2 m ts =
            Except.error StorageErr.tokenExpired))) := by
  refine ⟨?_, ?_, ?_, ?_⟩
  · intro h
    simp [Service.Authenticate, h]
  · intro a ha
    refine ⟨?_, ?_⟩
    · intro hle
      refine ⟨{ db with refreshTokens := (db.refreshTokens.map (fun rt =>
        if refreshMatches a rt then { rt with expiresAt := now + lifetime }
        else rt)) }, ?_⟩
      simp [Service.Authenticate, ha, Nat.not_lt.mpr hle]
    · intro hlt
      simp [Service.Authenticate, ha, hlt]
  · intro h
    simp [MemoryStorage.GetAccessToken, h]
  · intro a ha
    refine ⟨?_, ?_⟩
    · intro hle
      simp [MemoryStorage.GetAccessToken, ha, Nat.not_lt.mpr hle]
    · intro hlt
      simp [MemoryStorage.GetAccessToken, ha, hlt]

/-- Claim C1 witness: the amended classification applied at the concrete
boundary store (token absent, and token present with now at the expiry). -/
theorem C1_amended_witness :
    Service.Authenticate 5 10 dbAtFive "missing" =
      Except.error OauthErr.accessTokenNotFound :=
  (C1_amended_authenticate 5 10 dbAtFive "missing" memAtFive 5 "t").1 (by decide)

/-- Access token of client c3 with no user, for the refresh-extension
counterexample. -/
def tokC3 : OauthAccessToken :=
  { token := "t3", clientID := ⟨"c3", true⟩, userID := ⟨"", false⟩,
    scope := "read", expiresAt := 10, createdAt := 0 }

/-- A refresh token of the same client whose expiry, 1000, is far beyond
now + lifetime. -/
def rtC3 : OauthRefreshToken :=
  { token := "r3", clientID := ⟨"c3", true⟩, userID := ⟨"", false⟩,
    scope := "read", expiresAt := 1000, createdAt := 0 }

/-- The service database for the C3 counterexample. -/
def dbC3 : ServiceDB :=
  { accessTokens := [tokC3], refreshTokens := [rtC3] }

/-- The database Service.Authenticate produces from dbC3 at now = 5 with
lifetime 10: the refresh-token expiry is overwritten to 15. -/
def dbC3out : ServiceDB :=
  { accessTokens := [tokC3], refreshTokens := [{ rtC3 with expiresAt := 15 }] }

/-- Claim C3 (counterexample). A successful Authenticate at now = 5 with
refresh lifetime 10 overwrites a matching refresh token's expiry 1000 with
now + lifetime = 15: the expiry decreases, refuting the claim that no
refresh token's expiry ever decreases as a result of the call. -/
theorem C3_counterexample :
    Service.Authenticate 5 10 dbC3 "t3" = Except.ok (tokC3, dbC3out) ∧
    rtC3.expiresAt = 1000 ∧
    dbC3out.refreshTokens = [{ rtC3 with expiresAt := 15 }] ∧
    (15 : Nat) < 1000 := by
  refine ⟨by decide, by decide, by decide, by decide⟩

/-- Claim C3 (amended): on every successful Authenticate the expiry of
every refresh token matching the validated token's client (and user, with
absent user matching only absent user) is set to now + lifetime, every
non-matching refresh token and the access-token table are untouched, and
a matching token's expiry does not decrease provided its previous expiry
was at most now + lifetime. -/
theorem C3_amended (now lifetime : Nat) (db : ServiceDB) (t : String)
    (tok : OauthAccessToken) (db2 : ServiceDB)
    (h : Service.Authenticate now lifetime db t = Except.ok (tok, db2)) :
    db2.accessTokens = db.accessTokens ∧
    List.Forall₂ (fun rt rt2 =>
      (refreshMatches tok rt = true →
        rt2 = { rt with expiresAt := now + lifetime }) ∧
      (refreshMatches tok rt = false → rt2 = rt) ∧
      (rt.expiresAt ≤ now + lifetime → rt.expiresAt ≤ rt2.expiresAt))
      db.refreshTokens db2.refreshTokens := by
  unfold Service.Authenticate at h
  cases hf : db.accessTokens.find? (fun a => a.token == t) with
  | none =>
    rw [hf] at h
    cases h
  | some a =>
    rw [hf] at h
    by_cases he : a.expiresAt < now
    · simp [he] at h
    · simp only [he, if_false] at h
      simp only [Except.ok.injEq, Prod.mk.injEq] at h
      obtain ⟨h1, h2⟩ := h
      subst h1
      subst h2
      refine ⟨rfl, ?_⟩
      rw [List.forall₂_map_right_iff]
      rw [List.forall₂_same]
      intro rt _
      by_cases hm : refreshMatches a rt = true
      · refine ⟨?_, ?_, ?_⟩
        · intro _
          simp [hm]
        · intro hc
          rw [hm] at hc
          cases hc
        · intro hle
          simp only [hm, if_true]
          simpa using hle
      · have hm2 : refreshMatches a rt = false := by
          revert hm
          cases refreshMatches a rt <;> simp
        refine ⟨?_, ?_, ?_⟩
        · intro hc
          rw [hm2] at hc
          cases hc
        · intro _
          simp [hm2]
        · intro _
          simp [hm2]

/-- Claim C3 witness: the amended statement applied to the concrete
successful call of the counterexample database. -/
theorem C3_amended_witness :
    dbC3out.accessTokens = dbC3.accessTokens ∧
    List.Forall₂ (fun rt rt2 =>
      (refreshMatches tokC3 rt = true →
        rt2 = { rt with expiresAt := 5 + 10 }) ∧
      (refreshMatches tokC3 rt = false → rt2 = rt) ∧
      (rt.expiresAt ≤ 5 + 10 → rt.expiresAt ≤ rt2.expiresAt))
      dbC3.refreshTokens dbC3out.refreshTokens :=
  C3_amended 5 10 dbC3 "t3" tokC3 dbC3out (by decide)

/-- The stored user alice; the password column holds the bcrypt hash of
the correct password. -/
def alice : OauthUser :=
  { id := "u1", username := "alice",
    password := ⟨"bcrypt-hash-of-correct", true⟩, createdAt := 0 }

/-- PostgreSQL state holding only alice, no cache. -/
def pgC2 : PgState :=
  { cacheEnabled := false, clients := [], users := [alice],
    accessTokens := [], cache := [] }

/-- In-memory store holding only alice. -/
def memC2 : MemoryStorage :=
  { NewMemoryStorage with users := [("alice", alice)] }

/-- A concrete stand-in for the bcrypt comparison: alice's stored hash
matches exactly the password "correct". -/
def verifyC2 (hash password : String) : Bool :=
  hash == "bcrypt-hash-of-correct" && password == "correct"

/-- Claim C2 (code bug, evaluated at the failing input): the PostgreSQL
AuthenticateUser returns alice for the wrong password "wrongpw" — its
result does not depend on the password at all, the verification being an
unimplemented TODO — while the in-memory backend rejects the same pair
with InvalidCredentials. -/
theorem C2_bug_eval :
    (PostgreSQLStorage.AuthenticateUser 0 pgC2 "alice" "wrongpw").1 =
      Except.ok (some alice) ∧
    (PostgreSQLStorage.AuthenticateUser 0 pgC2 "alice" "wrongpw").1 =
      (PostgreSQLStorage.AuthenticateUser 0 pgC2 "alice" "correct").1 ∧
    verifyC2 alice.password.str "wrongpw" = false ∧
    MemoryStorage.AuthenticateUser verifyC2 memC2 "alice" "wrongpw" =
      Except.error StorageErr.invalidCredentials := by
  refine ⟨by decide, by decide, by decide, by decide⟩

/-- A PostgreSQL state with no rows and no cache. -/
def pgEmptyNoCache : PgState :=
  { cacheEnabled := false, clients := [], users := [],
    accessTokens := [], cache := [] }

/-- Claim C4 (counterexample). For an absent client id, the PostgreSQL
GetClient returns a nil record with nil error — an empty success, not a
not-found outcome on the error channel — while the in-memory backend
reports the distinct sentinel error. -/
theorem C4_counterexample :
    (PostgreSQLStorage.GetClient 0 pgEmptyNoCache "nope").1 =
      Except.ok none ∧
    MemoryStorage.GetClient NewMemoryStorage "nope" =
      Except.error StorageErr.clientNotFound := by
  refine ⟨by decide, by decide⟩

/-- Claim C4 (amended): every in-memory lookup reports an absent key with
its distinct sentinel error; the implemented PostgreSQL lookups
(GetClient, GetUser, GetUserByID, GetAccessToken) report an absent key by
returning a nil record together with a nil error, leaving the error
channel for backend failures only. -/
theorem C4_amended (m : MemoryStorage) (k : String) (now : Nat)
    (st : PgState) :
    (mapLookup m.clients k = none →
      MemoryStorage.GetClient m k = Except.error StorageErr.clientNotFound) ∧
    (mapLookup m.users k = none →
      MemoryStorage.GetUser m k = Except.error StorageErr.userNotFound) ∧
    (mapLookup m.usersByID k = none →
      MemoryStorage.GetUserByID m k = Except.error StorageErr.userNotFound) ∧
    (mapLookup m.accessTokens k = none →
      MemoryStorage.GetAccessToken now m k =
        Except.error StorageErr.tokenNotFound) ∧
    (mapLookup m.refreshTokens k = none →
      MemoryStorage.GetRefreshToken now m k =
        Except.error StorageErr.tokenNotFound) ∧
    (mapLookup m.authCodes k = none →
      MemoryStorage.GetAuthorizationCode now m k =
        Except.error StorageErr.codeNotFound) ∧
    (mapLookup m.scopes k = none →
      MemoryStorage.GetScope m k = Except.error StorageErr.scopeNotFound) ∧
    (pgCacheGet now st ("client:" ++ k) = none →
      st.clients.find? (fun c => c.key == k) = none →
      (PostgreSQLStorage.GetClient now st k).1 = Except.ok none) ∧
    (pgCacheGet now st ("user:" ++ k) = none →
      st.users.find? (fun u => u.username == k) = none →
      (PostgreSQLStorage.GetUser now st k).1 = Except.ok none) ∧
    (st.users.find? (fun u => u.id == k) = none →
      (PostgreSQLStorage.GetUserByID st k).1 = Except.ok none) ∧
    (pgCacheGet now st ("access_token:" ++ k) = none →
      st.accessTokens.find? (fun t => t.token == k) = none →
      (PostgreSQLStorage.GetAccessToken now st k).1 = Except.ok none) := by
  refine ⟨?_, ?_, ?_, ?_, ?_, ?_, ?_, ?_, ?_, ?_, ?_⟩
  · intro h
    simp [MemoryStorage.GetClient, h]
  · intro h
    simp [MemoryStorage.GetUser, h]
  · intro h
    simp [MemoryStorage.GetUserByID, h]
  · intro h
    simp [MemoryStorage.GetAccessToken, h]
  · intro h
    simp [MemoryStorage.GetRefreshToken, h]
  · intro h
    simp [MemoryStorage.GetAuthorizationCode, h]
  · intro h
    simp [MemoryStorage.GetScope, h]
  · intro h1 h2
    simp [PostgreSQLStorage.GetClient, h1, h2]
  · intro h1 h2
    simp [PostgreSQLStorage.GetUser, h1, h2]
  · intro h
    simp [PostgreSQLStorage.GetUserByID, h]
  · intro h1 h2
    simp [PostgreSQLStorage.GetAccessToken, h1, h2]

/-- Claim C4 witness: the amended behaviour at the concrete empty stores. -/
theorem C4_amended_witness :
    MemoryStorage.GetClient NewMemoryStorage "k" =
      Except.error StorageErr.clientNotFound :=
  (C4_amended NewMemoryStorage "k" 0 pgEmptyNoCache).1 (by decide)

/-- An access token already expired at now = 5. -/
def expiredTok : OauthAccessToken :=
  { token := "et", clientID := ⟨"c", true⟩, userID := ⟨"", false⟩,
    scope := "read", expiresAt := 1, createdAt := 0 }

/-- A refresh token already expired at now = 5. -/
def expiredRt : OauthRefreshToken :=
  { token := "er", clientID := ⟨"c", true⟩, userID := ⟨"", false⟩,
    scope := "read", expiresAt := 1, createdAt := 0 }

/-- An authorization code already expired at now = 5. -/
def expiredCode : OauthAuthorizationCode :=
  { code := "ec", clientID := ⟨"c", true⟩, userID := ⟨"u", true⟩,
    redirectURI := "https://cb", scope := "read", expiresAt := 1,
    createdAt := 0 }

/-- In-memory store holding one expired token of each kind. -/
def memC5 : MemoryStorage :=
  { NewMemoryStorage with
      accessTokens := [("et", expiredTok)],
      refreshTokens := [("er", expiredRt)],
      authCodes := [("ec", expiredCode)] }

/-- Claim C5 (code bug, evaluated at the failing input): the in-memory
CleanupExpiredTokens at now = 5 removes the expired access and refresh
tokens but never touches the authCodes map, so the expired authorization
code survives, contradicting the sweeper contract that deletes all three
kinds of expired records. -/
theorem C5_bug_eval :
    (∀ (now : Nat) (m : MemoryStorage),
      (MemoryStorage.CleanupExpiredTokens now m).1.authCodes = m.authCodes) ∧
    expiredCode.expiresAt < 5 ∧
    (MemoryStorage.CleanupExpiredTokens 5 memC5).1.accessTokens = [] ∧
    (MemoryStorage.CleanupExpiredTokens 5 memC5).1.refreshTokens = [] ∧
    (MemoryStorage.CleanupExpiredTokens 5 memC5).1.authCodes =
      [("ec", expiredCode)] ∧
    (MemoryStorage.CleanupExpiredTokens 5 memC5).2 = Except.ok () := by
  refine ⟨fun now m => rfl, by decide, by decide, by decide, by decide, by decide⟩

/-- A token expiring at 3600, for the cache-TTL counterexample. -/
def tokC6 : OauthAccessToken :=
  { token := "t6", clientID := ⟨"c", true⟩, userID := ⟨"", false⟩,
    scope := "read", expiresAt := 3600, createdAt := 0 }

/-- PostgreSQL state with an enabled, empty cache. -/
def pgC6 : PgState :=
  { cacheEnabled := true, clients := [], users := [],
    accessTokens := [], cache := [] }

/-- Claim C6 (counterexample). Storing a token that expires 3600 seconds
from now passes TTL 3600 to the cache — the raw time remaining — not
min(configured cache TTL, time remaining) = min 300 3600 = 300. -/
theorem C6_counterexample :
    mapLookup (PostgreSQLStorage.StoreAccessToken 0 pgC6 tokC6).2.cache
        "access_token:t6"
      = some ⟨CacheVal.token tokC6, 3600, 3600⟩ ∧
    min configuredCacheTTL 3600 = 300 ∧
    (3600 : Int) ≠ min configuredCacheTTL 3600 := by
  refine ⟨by decide, by decide, by decide⟩

/-- Claim C6 (amended): whenever a token is written to the cache — on
store and on cache repopulation after a store miss — the TTL passed is
exactly the time remaining until the token's expiry (time.Until), so the
resulting cache entry's absolute expiry equals the token's own expiry and
never exceeds it; the configured cache TTL is not consulted. -/
theorem C6_amended (now : Nat) (st : PgState) (tok : OauthAccessToken)
    (h : st.cacheEnabled = true) :
    mapLookup (PostgreSQLStorage.StoreAccessToken now st tok).2.cache
        ("access_token:" ++ tok.token)
      = some ⟨CacheVal.token tok, (tok.expiresAt : Int) - (now : Int),
          (tok.expiresAt : Int)⟩ ∧
    (∀ (ts : String) (t : OauthAccessToken),
      pgCacheGet now st ("access_token:" ++ ts) = none →
      st.accessTokens.find? (fun a => a.token == ts) = some t →
      now < t.expiresAt →
      mapLookup (PostgreSQLStorage.GetAccessToken now st ts).2.cache
          ("access_token:" ++ ts)
        = some ⟨CacheVal.token t, (t.expiresAt : Int) - (now : Int),
            (t.expiresAt : Int)⟩) := by
  have harith : ∀ e : Nat, (now : Int) + ((e : Int) - (now : Int)) = (e : Int) := by
    intro e
    omega
  constructor
  · simp [PostgreSQLStorage.StoreAccessToken, h, cacheSet,
      mapLookup_mapInsert_self, harith tok.expiresAt]
  · intro ts t h1 h2 h3
    simp [PostgreSQLStorage.GetAccessToken, h, h1, h2, h3, cacheSet,
      mapLookup_mapInsert_self, harith t.expiresAt]

/-- Claim C6 witness: the amended TTL rule at the concrete store call. -/
theorem C6_amended_witness :
    mapLookup (PostgreSQLStorage.StoreAccessToken 0 pgC6 tokC6).2.cache
        ("access_token:" ++ tokC6.token)
      = some ⟨CacheVal.token tokC6,
          (tokC6.expiresAt : Int) - ((0 : Nat) : Int),
          (tokC6.expiresAt : Int)⟩ :=
  (C6_amended 0 pgC6 tokC6 (by decide)).1

/-- Claim C7: after a successful UpdateClient, a GetClient for the same id
returns the updated client — never the pre-update value — regardless of
cache state, because the client's cache entry is deleted synchronously by
every successful create, update and delete of that client. -/
theorem C7_cache_coherence (st : PgState) (client : OauthClient)
    (now : Nat) :
    (PostgreSQLStorage.GetClient now
        (PostgreSQLStorage.UpdateClient st client).2 client.key).1
      = Except.ok (some client) ∧
    (st.cacheEnabled = true →
      mapLookup (PostgreSQLStorage.CreateClient st client).2.cache
          ("client:" ++ client.key) = none ∧
      mapLookup (PostgreSQLStorage.UpdateClient st client).2.cache
          ("client:" ++ client.key) = none ∧
      mapLookup (PostgreSQLStorage.DeleteClient st client.key).2.cache
          ("client:" ++ client.key) = none) := by
  constructor
  · by_cases hc : st.cacheEnabled = true
    · simp [PostgreSQLStorage.UpdateClient, PostgreSQLStorage.GetClient, hc,
        pgCacheGet, mapLookup_mapErase_self, find?_gormSave]
    · simp [PostgreSQLStorage.UpdateClient, PostgreSQLStorage.GetClient, hc,
        pgCacheGet, find?_gormSave]
  · intro hc
    refine ⟨?_, ?_, ?_⟩ <;>
      simp [PostgreSQLStorage.CreateClient, PostgreSQLStorage.UpdateClient,
        PostgreSQLStorage.DeleteClient, hc, mapLookup_mapErase_self]

/-- The pre-update client of the C7 witness. -/
def clientOld : OauthClient :=
  { key := "ck", secret := "old-secret", redirectURI := "https://old",
    createdAt := 0 }

/-- The updated client of the C7 witness: same key, new secret. -/
def clientNew : OauthClient :=
  { key := "ck", secret := "new-secret", redirectURI := "https://new",
    createdAt := 0 }

/-- PostgreSQL state whose cache still holds the stale pre-update client. -/
def pgC7 : PgState :=
  { cacheEnabled := true, clients := [clientOld], users := [],
    accessTokens := [],
    cache := [("client:ck", ⟨CacheVal.client clientOld, 300, 300⟩)] }

/-- Claim C7 witness: with a stale cache entry for the client present,
GetClient after UpdateClient still returns the updated client. -/
theorem C7_witness :
    (PostgreSQLStorage.GetClient 0
        (PostgreSQLStorage.UpdateClient pgC7 clientNew).2 clientNew.key).1
      = Except.ok (some clientNew) :=
  (C7_cache_coherence pgC7 clientNew 0).1

/-- In-memory store whose only scope, "write", is flagged default. -/
def memC8 : MemoryStorage :=
  { NewMemoryStorage with
      scopes := [("write", { scope := "write", isDefault := true })] }

/-- Claim C8 (counterexample). With "write" the only scope and the only
default-flagged scope in the store, GetDefaultScope still returns the
constant "read": the stored is-default flags play no part. -/
theorem C8_counterexample :
    MemoryStorage.GetDefaultScope memC8 = Except.ok "read" ∧
    (memC8.scopes.filter (fun p => p.2.isDefault)).map (fun p => p.2.scope)
      = ["write"] ∧
    ("read" : String) ≠ "write" := by
  refine ⟨by decide, by decide, by decide⟩

/-- Claim C8 (amended): the in-memory GetDefaultScope returns the constant
scope "read" for every store state, regardless of which stored scopes are
flagged default. -/
theorem C8_amended (m : MemoryStorage) :
    MemoryStorage.GetDefaultScope m = Except.ok "read" := rfl

/-- Claim C9: the four in-memory delete operations always return success —
deleting an absent key is not an error — and each is idempotent: a second
delete of the same key succeeds and leaves the store unchanged. -/
theorem C9_delete_idempotent (m : MemoryStorage) (k : String) :
    (MemoryStorage.DeleteClient m k).2 = Except.ok () ∧
    (MemoryStorage.DeleteAccessToken m k).2 = Except.ok () ∧
    (MemoryStorage.DeleteRefreshToken m k).2 = Except.ok () ∧
    (MemoryStorage.DeleteAuthorizationCode m k).2 = Except.ok () ∧
    MemoryStorage.DeleteClient (MemoryStorage.DeleteClient m k).1 k =
      MemoryStorage.DeleteClient m k ∧
    MemoryStorage.DeleteAccessToken
        (MemoryStorage.DeleteAccessToken m k).1 k =
      MemoryStorage.DeleteAccessToken m k ∧
    MemoryStorage.DeleteRefreshToken
        (MemoryStorage.DeleteRefreshToken m k).1 k =
      MemoryStorage.DeleteRefreshToken m k ∧
    MemoryStorage.DeleteAuthorizationCode
        (MemoryStorage.DeleteAuthorizationCode m k).1 k =
      MemoryStorage.DeleteAuthorizationCode m k := by
  refine ⟨rfl, rfl, rfl, rfl, ?_, ?_, ?_, ?_⟩ <;>
    simp [MemoryStorage.DeleteClient, MemoryStorage.DeleteAccessToken,
      MemoryStorage.DeleteRefreshToken, MemoryStorage.DeleteAuthorizationCode,
      mapErase_idem]

/-- Claim C10: MemoryCache.Get never writes the stored value into dest —
after a Set whose TTL has not yet elapsed, Get reports success yet returns
dest unchanged, and in every state Get leaves dest unchanged. -/
theorem C10_get_frame {α : Type} (m : MemoryCache α) (now now2 ttl : Nat)
    (key : String) (value dest : α) (h : now2 ≤ now + ttl) :
    MemoryCache.Get now2 (MemoryCache.Set now m key value ttl).1 key dest
      = (Except.ok (), dest) ∧
    (∀ (m2 : MemoryCache α) (now3 : Nat) (k2 : String) (d2 : α),
      (MemoryCache.Get now3 m2 k2 d2).2 = d2) := by
  constructor
  · simp [MemoryCache.Get, MemoryCache.Set, mapLookup_mapInsert_self,
      Nat.not_lt.mpr h]
  · intro m2 now3 k2 d2
    unfold MemoryCache.Get
    cases mapLookup m2.data k2 with
    | none => rfl
    | some item =>
      by_cases h3 : now3 > item.expiresAt <;> simp [h3]

/-- Claim C10 witness: set 7 under "k" at time 0 with TTL 5, get at time 3
into dest 0 — success, yet dest stays 0, not the stored 7. -/
theorem C10_witness :
    (MemoryCache.Get 3
        (MemoryCache.Set 0 (⟨[]⟩ : MemoryCache Nat) "k" 7 5).1 "k" 0
      = (Except.ok (), 0) ∧
    (∀ (m2 : MemoryCache Nat) (now3 : Nat) (k2 : String) (d2 : Nat),
      (MemoryCache.Get now3 m2 k2 d2).2 = d2)) ∧
    (0 : Nat) ≠ 7 :=
  ⟨C10_get_frame (⟨[]⟩ : MemoryCache Nat) 0 3 5 "k" 7 0 (by decide),
   by decide⟩
